import Mathlib

/-!
Verification development for the `nterm` embedded terminal emulator
(`src/shared/terminal/term.rs` and `src/gui/terminal_widget.rs`).

Pure functions of the source (color resolution, command parsing, the
cell-snapshot construction) are embedded directly.  The stateful parts
(the reader-pump loop, the facade state, the GUI widget state) are
embedded as explicit state-passing functions over the same data.  The
VT100 parser itself is an external crate dependency that is not part of
the repository's sources; its behaviour (`process`, `set_size`,
scrollback) is modelled from the specification, which is noted on each
such definition.
-/

namespace NTerm

/-- Terminal size in cells (`TerminalSize` in term.rs). `u16` fields are
modelled as `Nat`; none of the operations verified here overflow. -/
structure TerminalSize where
  rows : Nat
  cols : Nat
deriving DecidableEq

/-- RGB color for terminal cells (`TerminalColor` in term.rs). -/
structure TerminalColor where
  r : Nat
  g : Nat
  b : Nat
deriving DecidableEq

namespace TerminalColor

/-- `TerminalColor::black`. -/
def black : TerminalColor := ⟨0, 0, 0⟩

/-- `TerminalColor::white` — the fixed light-gray constant `(211, 215, 207)`. -/
def white : TerminalColor := ⟨211, 215, 207⟩

end TerminalColor

/-- The `vt100::Color` tagged union: default / 256-color index / direct RGB. -/
inductive Vt100Color where
  | default
  | idx (i : Nat)
  | rgb (r g b : Nat)
deriving DecidableEq

/-- `TerminalColor::from_256_color` (term.rs lines 61-101): 256-color index
to RGB. The index is a `u8`, modelled as a `Nat` below 256. -/
def from_256_color (idx : Nat) : TerminalColor :=
  if idx < 16 then
    match idx with
    | 0 => ⟨0, 0, 0⟩
    | 1 => ⟨128, 0, 0⟩
    | 2 => ⟨0, 128, 0⟩
    | 3 => ⟨128, 128, 0⟩
    | 4 => ⟨0, 0, 128⟩
    | 5 => ⟨128, 0, 128⟩
    | 6 => ⟨0, 128, 128⟩
    | 7 => ⟨192, 192, 192⟩
    | 8 => ⟨128, 128, 128⟩
    | 9 => ⟨255, 0, 0⟩
    | 10 => ⟨0, 255, 0⟩
    | 11 => ⟨255, 255, 0⟩
    | 12 => ⟨0, 0, 255⟩
    | 13 => ⟨255, 0, 255⟩
    | 14 => ⟨0, 255, 255⟩
    | 15 => ⟨255, 255, 255⟩
    | _ => TerminalColor.white
  else if idx < 232 then
    let j := idx - 16
    let r := (j / 36) % 6
    let g := (j / 6) % 6
    let b := j % 6
    ⟨if r > 0 then r * 40 + 55 else 0,
     if g > 0 then g * 40 + 55 else 0,
     if b > 0 then b * 40 + 55 else 0⟩
  else
    let gray := (idx - 232) * 10 + 8
    ⟨gray, gray, gray⟩

/-- `TerminalColor::from_vt100_color` (term.rs lines 52-58). -/
def from_vt100_color : Vt100Color → TerminalColor
  | .default => TerminalColor.white
  | .idx i => from_256_color i
  | .rgb r g b => ⟨r, g, b⟩

/-- The documented ANSI 16-color palette, stated from the specification for
comparison against `from_256_color`. -/
def ansiPalette16 (i : Nat) : TerminalColor :=
  match i with
  | 0 => ⟨0, 0, 0⟩
  | 1 => ⟨128, 0, 0⟩
  | 2 => ⟨0, 128, 0⟩
  | 3 => ⟨128, 128, 0⟩
  | 4 => ⟨0, 0, 128⟩
  | 5 => ⟨128, 0, 128⟩
  | 6 => ⟨0, 128, 128⟩
  | 7 => ⟨192, 192, 192⟩
  | 8 => ⟨128, 128, 128⟩
  | 9 => ⟨255, 0, 0⟩
  | 10 => ⟨0, 255, 0⟩
  | 11 => ⟨255, 255, 0⟩
  | 12 => ⟨0, 0, 255⟩
  | 13 => ⟨255, 0, 255⟩
  | 14 => ⟨0, 255, 255⟩
  | _ => ⟨255, 255, 255⟩

/-- Spec formula for one channel of the 6x6x6 color cube: `0` when the
base-6 digit is `0`, else `digit*40+55`. -/
def cubeChannel (d : Nat) : Nat :=
  if d = 0 then 0 else d * 40 + 55

/-- A cell as held by the VT100 screen: the character (space if empty),
unresolved colors, and the four attribute flags.  Mirrors what
`vt100::cell::Cell` exposes through `contents/fgcolor/bgcolor/bold/italic/
underline/inverse` (term.rs lines 327-338). -/
structure VtCell where
  ch : Char
  fg : Vt100Color
  bg : Vt100Color
  bold : Bool
  italic : Bool
  underline : Bool
  inverse : Bool
deriving DecidableEq

/-- The empty cell: a space with default colors and no attributes. -/
def VtCell.blank : VtCell :=
  ⟨' ', .default, .default, false, false, false, false⟩

/-- Current drawing attributes carried by the parser (SGR state). -/
structure Attrs where
  fg : Vt100Color
  bg : Vt100Color
  bold : Bool
  italic : Bool
  underline : Bool
  inverse : Bool
deriving DecidableEq

/-- Initial drawing attributes: everything default / off. -/
def Attrs.init : Attrs := ⟨.default, .default, false, false, false, false⟩

/-- Carry-over state of the escape-sequence / UTF-8 decoder between bytes.
Modelled from the spec: "the parser retains internal carry-over state
between calls"; partial escape sequences and split multi-byte UTF-8
sequences are held here across `process` calls. -/
inductive ParseState where
  | ground
  | esc
  | csi (params : List Nat) (cur : Nat)
  | utf8 (need : Nat) (acc : Nat)
deriving DecidableEq

/-- Modelled from the spec: the `ScreenState` owned by the VT100 parser
crate (`vt100::Parser`, an external dependency absent from the
repository's sources): a rows x cols grid of cells, cursor position,
current attributes, the decoder carry-over state, and a scrollback region
bounded by a capacity fixed at construction. -/
structure Screen where
  rows : Nat
  cols : Nat
  grid : List (List VtCell)
  curRow : Nat
  curCol : Nat
  attrs : Attrs
  pstate : ParseState
  scrollCap : Nat
  scrollback : List (List VtCell)
deriving DecidableEq

/-- Modelled from the spec: `ScreenState::new(size, scrollback_capacity)` —
a blank grid, cursor at the origin, empty scrollback, capacity fixed at
construction. -/
def Screen.init (rows cols cap : Nat) : Screen :=
  ⟨rows, cols, List.replicate rows (List.replicate cols VtCell.blank),
   0, 0, Attrs.init, .ground, cap, []⟩

/-- Modelled from the spec: appending a row that scrolled off the top to
the scrollback region, evicting the oldest rows first (FIFO) once the
fixed capacity is exceeded. Rows are kept oldest-first. -/
def pushScrollback (cap : Nat) (sb : List (List VtCell)) (row : List VtCell) :
    List (List VtCell) :=
  let sb1 := sb ++ [row]
  if cap < sb1.length then sb1.drop (sb1.length - cap) else sb1

/-- Replace the element at position `i` of a list, when in bounds. -/
def setNth {α : Type} (l : List α) (i : Nat) (a : α) : List α :=
  l.take i ++ (if i < l.length then [a] else []) ++ l.drop (i + 1)

/-- Modelled from the spec: line feed. The cursor moves down one row; at
the bottom of the viewport the grid scrolls, pushing the top row into the
bounded scrollback. -/
def Screen.lineFeed (s : Screen) : Screen :=
  if s.curRow + 1 < s.rows then { s with curRow := s.curRow + 1 }
  else if s.rows = 0 then s
  else
    { s with
      scrollback := pushScrollback s.scrollCap s.scrollback
        (s.grid.headD (List.replicate s.cols VtCell.blank)),
      grid := s.grid.tail ++ [List.replicate s.cols VtCell.blank] }

/-- Modelled from the spec: write one decoded character at the cursor with
the current attributes, wrapping at the right margin. -/
def Screen.putChar (s : Screen) (c : Char) : Screen :=
  let s :=
    if s.curCol < s.cols then s
    else { s.lineFeed with curCol := 0 }
  let cell : VtCell :=
    ⟨c, s.attrs.fg, s.attrs.bg, s.attrs.bold, s.attrs.italic,
     s.attrs.underline, s.attrs.inverse⟩
  { s with
    grid := setNth s.grid s.curRow (setNth (s.grid.getD s.curRow []) s.curCol cell),
    curCol := s.curCol + 1 }

/-- Modelled from the spec: apply one SGR (select graphic rendition)
parameter to the current attributes; unknown parameters are ignored. -/
def applySgr (a : Attrs) (p : Nat) : Attrs :=
  if p = 0 then Attrs.init
  else if p = 1 then { a with bold := true }
  else if p = 3 then { a with italic := true }
  else if p = 4 then { a with underline := true }
  else if p = 7 then { a with inverse := true }
  else if p = 22 then { a with bold := false }
  else if p = 23 then { a with italic := false }
  else if p = 24 then { a with underline := false }
  else if p = 27 then { a with inverse := false }
  else if 30 ≤ p ∧ p ≤ 37 then { a with fg := .idx (p - 30) }
  else if p = 39 then { a with fg := .default }
  else if 40 ≤ p ∧ p ≤ 47 then { a with bg := .idx (p - 40) }
  else if p = 49 then { a with bg := .default }
  else if 90 ≤ p ∧ p ≤ 97 then { a with fg := .idx (p - 90 + 8) }
  else if 100 ≤ p ∧ p ≤ 107 then { a with bg := .idx (p - 100 + 8) }
  else a

/-- Modelled from the spec: dispatch of a complete CSI sequence; `m` (SGR)
and `H` (cursor position) are interpreted, every other final byte is
consumed and ignored ("unknown sequences are consumed and ignored"). -/
def Screen.applyCsi (s : Screen) (params : List Nat) (finalByte : Nat) : Screen :=
  if finalByte = 109 then
    { s with attrs := params.foldl applySgr s.attrs }
  else if finalByte = 72 then
    let r := params.getD 0 1
    let c := params.getD 1 1
    { s with
      curRow := min (r - 1) (s.rows - 1),
      curCol := min (c - 1) (s.cols - 1) }
  else s

/-- Modelled from the spec: one byte of `process` in the ground state. -/
def Screen.groundStep (s : Screen) (b : Nat) : Screen :=
  if b = 27 then { s with pstate := .esc }
  else if b = 10 then s.lineFeed
  else if b = 13 then { s with curCol := 0 }
  else if b = 8 then { s with curCol := s.curCol - 1 }
  else if b < 32 then s
  else if b < 128 then s.putChar (Char.ofNat b)
  else if b < 192 then s
  else if b < 224 then { s with pstate := .utf8 1 (b - 192) }
  else if b < 240 then { s with pstate := .utf8 2 (b - 224) }
  else if b < 248 then { s with pstate := .utf8 3 (b - 240) }
  else s

/-- Modelled from the spec: the byte-at-a-time VT100 state machine
underlying `ScreenState::process`.  Printable text, line feed, carriage
return, backspace, CSI sequences (SGR and cursor positioning) and
multi-byte UTF-8 are interpreted; malformed or unrecognized input is
consumed and ignored, never an error. -/
def Screen.step (s : Screen) (b : Nat) : Screen :=
  match s.pstate with
  | .ground => s.groundStep b
  | .esc =>
    if b = 91 then { s with pstate := .csi [] 0 }
    else { s with pstate := .ground }
  | .csi params cur =>
    if 48 ≤ b ∧ b ≤ 57 then { s with pstate := .csi params (cur * 10 + (b - 48)) }
    else if b = 59 then { s with pstate := .csi (params ++ [cur]) 0 }
    else if 64 ≤ b ∧ b ≤ 126 then
      { (s.applyCsi (params ++ [cur]) b) with pstate := .ground }
    else { s with pstate := .ground }
  | .utf8 need acc =>
    if 128 ≤ b ∧ b < 192 then
      let acc1 := acc * 64 + (b - 128)
      if need ≤ 1 then ({ s with pstate := .ground }).putChar (Char.ofNat acc1)
      else { s with pstate := .utf8 (need - 1) acc1 }
    else ({ s with pstate := .ground }).groundStep b

/-- Modelled from the spec: `ScreenState::process(bytes)` — feed a chunk
of bytes through the escape-sequence parser, one byte at a time, carrying
the decoder state across calls. -/
def Screen.process (s : Screen) (bytes : List Nat) : Screen :=
  bytes.foldl Screen.step s

/-- Modelled from the spec: `ScreenState::set_size(rows, cols)` —
truncates/pads each row to the new width, pads missing rows at the
bottom, and pushes rows that no longer fit into the scrollback (oldest
first), clamping the cursor into the new bounds. -/
def Screen.setSize (s : Screen) (rows cols : Nat) : Screen :=
  let reflowed := s.grid.map
    (fun r => r.take cols ++ List.replicate (cols - r.length) VtCell.blank)
  let padded :=
    if reflowed.length < rows then
      reflowed ++ List.replicate (rows - reflowed.length)
        (List.replicate cols VtCell.blank)
    else reflowed
  let excess := padded.length - rows
  { s with
    rows := rows, cols := cols,
    grid := padded.drop excess,
    curRow := min s.curRow (rows - 1),
    curCol := min s.curCol (cols - 1),
    scrollback := (padded.take excess).foldl (pushScrollback s.scrollCap) s.scrollback }

/-- Modelled from the spec: `ScreenState::cell(row, col)` — point query,
`none` when out of bounds. -/
def Screen.cell (s : Screen) (r c : Nat) : Option VtCell :=
  if r < s.rows ∧ c < s.cols then
    some ((s.grid.getD r []).getD c VtCell.blank)
  else none

/-- Length of the scrollback region (`Terminal::scrollback_len`, via the
spec-modelled screen). -/
def Screen.scrollback_len (s : Screen) : Nat :=
  s.scrollback.length

/-- A cell of the repository's own grid snapshot (`TerminalCell` in
term.rs): resolved colors and attribute flags. -/
structure TerminalCell where
  c : Char
  fg : TerminalColor
  bg : TerminalColor
  bold : Bool
  italic : Bool
  underline : Bool
  inverse : Bool
deriving DecidableEq

/-- `impl Default for TerminalCell` (term.rs lines 122-134): space,
light-gray foreground, black background, all attributes off. -/
def TerminalCell.default : TerminalCell :=
  ⟨' ', TerminalColor.white, TerminalColor.black, false, false, false, false⟩

/-- The per-cell conversion inside `Terminal::cells` (term.rs lines
330-338): first character of the cell contents (space if empty), colors
resolved through `from_vt100_color`, attributes copied. -/
def convertVtCell (cell : VtCell) : TerminalCell :=
  ⟨cell.ch, from_vt100_color cell.fg, from_vt100_color cell.bg,
   cell.bold, cell.italic, cell.underline, cell.inverse⟩

/-- The `Terminal` facade state (term.rs lines 152-158) restricted to what
the verified operations touch: the size of the OS pseudo-terminal as set
at `openpty` (the master handle is dropped at the end of `spawn`, so this
is what the child continues to observe), the facade's stored size, and
the parser state behind the lock. -/
structure Terminal where
  ptySize : TerminalSize
  size : TerminalSize
  parser : Screen
deriving DecidableEq

/-- `Terminal::resize` (term.rs lines 297-300): stores the new size and
calls `set_size` on the parser.  No other field is touched — in
particular the code holds no handle to the PTY master at this point. -/
def Terminal.resize (t : Terminal) (size : TerminalSize) : Terminal :=
  { t with size := size,
           parser := t.parser.setSize size.rows size.cols }

/-- `Terminal::cells` (term.rs lines 317-348): a fresh rows x cols grid of
owned `TerminalCell`s, iterating the facade's stored size and filling
positions the screen query does not cover with the default cell. -/
def Terminal.cells (t : Terminal) : List (List TerminalCell) :=
  (List.range t.size.rows).map (fun rowIdx =>
    (List.range t.size.cols).map (fun colIdx =>
      match t.parser.cell rowIdx colIdx with
      | some cell => convertVtCell cell
      | none => TerminalCell.default))

/-- Rust's `char::is_whitespace` (the Unicode White_Space property), used
by `str::split_whitespace` in `Terminal::spawn`. -/
def isRustWhitespace (c : Char) : Bool :=
  c.toNat = 32 ∨ (9 ≤ c.toNat ∧ c.toNat ≤ 13) ∨ c.toNat = 133 ∨ c.toNat = 160 ∨
  c.toNat = 5760 ∨ (8192 ≤ c.toNat ∧ c.toNat ≤ 8202) ∨ c.toNat = 8232 ∨
  c.toNat = 8233 ∨ c.toNat = 8239 ∨ c.toNat = 8287 ∨ c.toNat = 12288

/-- Helper for `splitWhitespace`: walk the characters accumulating the
current word (reversed). -/
def splitWsAux : List Char → List Char → List (List Char)
  | [], acc => if acc.isEmpty then [] else [acc.reverse]
  | c :: rest, acc =>
    if isRustWhitespace c then
      if acc.isEmpty then splitWsAux rest []
      else acc.reverse :: splitWsAux rest []
    else splitWsAux rest (c :: acc)

/-- Rust's `str::split_whitespace().collect::<Vec<_>>()`: the maximal
whitespace-free words of the string, in order, with no empty words. -/
def splitWhitespace (s : List Char) : List (List Char) :=
  splitWsAux s []

/-- The OS-dependent outcomes `Terminal::spawn` consults, made explicit:
whether `openpty` succeeds, whether `spawn_command` succeeds, and the
`SHELL` environment variable fallback. -/
structure OsEnv where
  openptyOk : Bool
  spawnOk : Bool
  shell : List Char
deriving DecidableEq

/-- What a successful `Terminal::spawn` produces: the facade state plus
the command actually handed to `CommandBuilder` and the `TERM` value set
in the child's environment. -/
structure SpawnResult where
  term : Terminal
  program : List Char
  args : List (List Char)
  termEnvVar : String
deriving DecidableEq

/-- `Terminal::spawn(command, size)` (term.rs lines 167-263), with the OS
calls abstracted into `OsEnv`: open the PTY at `size`, parse the command
by whitespace-splitting (erroring on an empty split), fall back to the
shell when no command is given, spawn, and create the parser with a
scrollback capacity of 1000 fixed at construction. -/
def Terminal.spawnModel (env : OsEnv) (command : Option (List Char))
    (size : TerminalSize) : Except String SpawnResult :=
  if env.openptyOk = false then .error "Failed to open PTY"
  else
    let progArgs : Except String (List Char × List (List Char)) :=
      match command with
      | some cmd =>
        match splitWhitespace cmd with
        | [] => .error "Empty command"
        | p :: rest => .ok (p, rest)
      | none => .ok (env.shell, [])
    match progArgs with
    | .error e => .error e
    | .ok pa =>
      if env.spawnOk = false then .error "Failed to spawn command"
      else .ok
        { term :=
            { ptySize := size, size := size,
              parser := Screen.init size.rows size.cols 1000 },
          program := pa.1, args := pa.2, termEnvVar := "xterm-256color" }

/-- The events emitted to the UI (`TerminalEvent` in term.rs). -/
inductive TerminalEvent where
  | output
  | bell
  | title (s : String)
  | exit (code : Int)
  | error (msg : String)
deriving DecidableEq

/-- One return of `reader.read(&mut buf)` as seen by the reader thread:
end of file (`Ok(0)`), a chunk of `n > 0` bytes (`Ok(n)`), or an I/O
error. -/
inductive ReadResult where
  | eof
  | chunk (data : List Nat)
  | readFailed (msg : String)
deriving DecidableEq

/-- The `let _ = event_tx.send(ev)` in the reader thread: the event is
enqueued when the channel's consumer is still connected, and the result
is discarded either way. -/
def sendEvent (connected : Bool) (e : TerminalEvent)
    (later : List TerminalEvent) : List TerminalEvent :=
  if connected then e :: later else later

/-- The reader-thread loop of `Terminal::spawn` (term.rs lines 231-254),
run over an explicit list of successive `read` outcomes: `Ok(0)` sends
`Exit(0)` and breaks, a chunk is processed under the write lock and one
`Output` event is sent, a read error sends `Error(..)` and breaks.  The
returned list is the queue of events actually enqueued, in order. -/
def readerPump (connected : Bool) :
    List ReadResult → Screen → Screen × List TerminalEvent
  | [], scr => (scr, [])
  | .eof :: _, scr => (scr, sendEvent connected (.exit 0) [])
  | .readFailed m :: _, scr =>
    (scr, sendEvent connected (.error ("Read error: " ++ m)) [])
  | .chunk d :: rest, scr =>
    let res := readerPump connected rest (scr.process d)
    (res.1, sendEvent connected .output res.2)

/-- The PTY writer behind `Terminal::input`: the bytes accepted so far,
plus the OS-level failure modes of `write_all` and `flush`. -/
structure Writer where
  buf : List Nat
  writeFails : Bool
  flushFails : Bool
  osMsg : String
deriving DecidableEq

/-- `Terminal::input` (term.rs lines 266-274): lock the writer,
`write_all` then `flush`, mapping OS failures to "Write error: .." and
"Flush error: ..".  No session state is consulted. -/
def Terminal.inputModel (w : Writer) (data : List Nat) : Except String Writer :=
  if w.writeFails then .error ("Write error: " ++ w.osMsg)
  else
    let w1 := { w with buf := w.buf ++ data }
    if w1.flushFails then .error ("Flush error: " ++ w.osMsg)
    else .ok w1

/-- The GUI widget state (`TerminalView` in terminal_widget.rs lines
12-18): an optional running terminal (paired here with its writer), the
requested size, and the exit tracking set by `tick`. -/
structure TerminalView where
  terminal : Option (Terminal × Writer)
  rows : Nat
  cols : Nat
  hasExited : Bool
  exitCode : Option Int
deriving DecidableEq

/-- `TerminalView::input_bytes` (terminal_widget.rs lines 64-70): errors
with "Terminal not running" only when no terminal handle exists;
otherwise delegates to `Terminal::input` unconditionally. -/
def TerminalView.input (v : TerminalView) (data : List Nat) : Except String Writer :=
  match v.terminal with
  | some tw => Terminal.inputModel tw.2 data
  | none => .error "Terminal not running"

/-- `TerminalView::tick` (terminal_widget.rs lines 73-98) applied to the
polled events: `Output` sets the had-output flag, `Exit(code)` and
`Error(..)` set `has_exited`, everything else is ignored. -/
def TerminalView.tick (v : TerminalView) (events : List TerminalEvent) :
    TerminalView × Bool :=
  match v.terminal with
  | none => (v, false)
  | some _ =>
    events.foldl
      (fun acc e =>
        match e with
        | .output => (acc.1, true)
        | .exit code => ({ acc.1 with hasExited := true, exitCode := some code }, acc.2)
        | .error _ => ({ acc.1 with hasExited := true }, acc.2)
        | _ => acc)
      (v, false)

/-- Modelled from the spec: the screen states reachable through the
engine — an initial screen of any geometry and scrollback capacity,
closed under `process` (the reader pump) and `set_size` (resize). -/
inductive Reachable : Screen → Prop where
  | init (rows cols cap : Nat) : Reachable (Screen.init rows cols cap)
  | processed (s : Screen) (bytes : List Nat) :
      Reachable s → Reachable (s.process bytes)
  | resized (s : Screen) (r c : Nat) :
      Reachable s → Reachable (s.setSize r c)

/-- A sample idle PTY writer used for concrete instantiations. -/
def idleWriter : Writer := ⟨[], false, false, ""⟩

/-- A sample widget state holding a live 2x2 session before any event. -/
def sampleView : TerminalView :=
  ⟨some (⟨⟨2, 2⟩, ⟨2, 2⟩, Screen.init 2 2 1000⟩, idleWriter), 2, 2, false, none⟩

/-- The sample widget state after `tick` has consumed an `Exit(0)` event. -/
def sampleExitedView : TerminalView :=
  (sampleView.tick [TerminalEvent.exit 0]).1

/- ------------------------------------------------------------------ -/
/- Theorems                                                           -/
/- ------------------------------------------------------------------ -/

theorem pushScrollback_length_le (cap : Nat) (sb : List (List VtCell))
    (row : List VtCell) : (pushScrollback cap sb row).length ≤ cap := by
  unfold pushScrollback
  by_cases h : cap < (sb ++ [row]).length
  · simp only [h, if_pos, List.length_drop]
    omega
  · simp only [h, if_neg, not_false_iff]
    simp at h ⊢
    omega

/-- Claim C1: chunk-boundary invariance of `process` — feeding the chunks
of any partition of a byte stream through successive `process` calls in
order yields the same final screen state (grid, cursor, attributes,
decoder carry-over, scrollback) as one `process` call on the whole
stream. -/
theorem process_chunk_invariance (chunks : List (List Nat)) (st : Screen) :
    chunks.foldl Screen.process st = st.process chunks.flatten := by
  induction chunks generalizing st with
  | nil => simp [Screen.process]
  | cons c cs ih =>
    simp only [List.foldl_cons, List.flatten]
    rw [ih]
    simp [Screen.process, List.foldl_append]

/-- Claim C2 counterexample: `Terminal::resize` does not propagate the
new dimensions to the OS pseudo-terminal.  A concrete session opened at
24x80 and resized to 30x100 still has a 24x80 PTY: the facade drops the
PTY master handle at the end of `spawn` and `resize` only updates the
stored size and the parser. -/
theorem resize_pty_counterexample :
    ¬ (((Terminal.mk ⟨24, 80⟩ ⟨24, 80⟩ (Screen.init 24 80 1000)).resize
        ⟨30, 100⟩).ptySize = TerminalSize.mk 30 100) := by
  simp only [Terminal.resize]
  decide

/-- Claim C2 (amended): `resize(size)` updates the facade's stored size
and forwards the new dimensions to the screen state via `set_size`, but
leaves the OS pseudo-terminal size untouched. -/
theorem resize_updates_screen_not_pty (t : Terminal) (size : TerminalSize) :
    (t.resize size).size = size ∧
    (t.resize size).parser = t.parser.setSize size.rows size.cols ∧
    (t.resize size).ptySize = t.ptySize :=
  ⟨rfl, rfl, rfl⟩

/-- Claim C3 counterexample: after the widget has consumed an `Exit(0)`
event (`has_exited` is set), a further `input()` call does not fail with
a "not running" error — the terminal handle is still present, so the call
is delegated to the PTY writer and here silently succeeds, appending the
byte to the writer. -/
theorem input_after_exit_counterexample :
    sampleExitedView.hasExited = true ∧
    sampleExitedView.input [108] = .ok ⟨[108], false, false, ""⟩ := by
  constructor
  · rfl
  · rfl

/-- Claim C3 (amended): `input()` fails with the "Terminal not running"
error exactly when no terminal handle exists (none was ever spawned);
once a session is running, input is delegated unconditionally to the PTY
writer regardless of any Exit or Error event consumed by `tick`, so after
exit it silently succeeds or fails only with OS-level "Write error" /
"Flush error" messages. -/
theorem input_not_running_only_when_unstarted (v : TerminalView)
    (data : List Nat) :
    (v.terminal = none → v.input data = .error "Terminal not running") ∧
    (∀ tw, v.terminal = some tw →
      v.input data = Terminal.inputModel tw.2 data) := by
  constructor
  · intro h
    simp [TerminalView.input, h]
  · intro tw h
    simp [TerminalView.input, h]

/-- Claim C3 witness: a widget with no spawned terminal rejects input
with the "Terminal not running" error. -/
theorem input_not_running_only_when_unstarted_witness :
    (TerminalView.mk none 24 80 false none).input [97] =
      .error "Terminal not running" :=
  (input_not_running_only_when_unstarted (TerminalView.mk none 24 80 false none)
    [97]).1 rfl

/-- Claim C4: the reader pump, on `Ok(0)` (EOF), enqueues exactly one
`Exit(0)` event and terminates the loop (later pending reads are never
consumed and no further event is emitted); on a read error it enqueues
one `Error` event and terminates; on a successful read of a non-empty
chunk it processes exactly that chunk and then enqueues one `Output`
event before continuing. -/
theorem readerPump_lifecycle (rest : List ReadResult) (scr : Screen)
    (d : List Nat) (m : String) (_hd : d ≠ []) :
    readerPump true (.eof :: rest) scr = (scr, [TerminalEvent.exit 0]) ∧
    readerPump true (.readFailed m :: rest) scr =
      (scr, [TerminalEvent.error ("Read error: " ++ m)]) ∧
    readerPump true (.chunk d :: rest) scr =
      ((readerPump true rest (scr.process d)).1,
        TerminalEvent.output :: (readerPump true rest (scr.process d)).2) := by
  refine ⟨rfl, rfl, ?_⟩
  simp [readerPump, sendEvent]

/-- Claim C4 witness: an EOF read followed by a pending chunk yields
exactly one `Exit(0)` event, leaves the screen untouched, and never
consumes the later chunk. -/
theorem readerPump_lifecycle_witness :
    readerPump true [ReadResult.eof, ReadResult.chunk [98]] (Screen.init 1 1 0)
      = (Screen.init 1 1 0, [TerminalEvent.exit 0]) :=
  (readerPump_lifecycle [ReadResult.chunk [98]] (Screen.init 1 1 0) [97] "x"
    (by decide)).1

/-- Claim C9: `cells()` returns a grid of exactly `size().rows` rows of
exactly `size().cols` cells each; any position the underlying screen
query does not cover is the default cell, and the default cell is a space
with light-gray foreground, black background, and all attributes off.
Being a pure function of the state, the snapshot is a fresh owned value. -/
theorem cells_snapshot (t : Terminal) :
    t.cells.length = t.size.rows ∧
    (∀ row ∈ t.cells, row.length = t.size.cols) ∧
    (∀ r c, r < t.size.rows → c < t.size.cols → t.parser.cell r c = none →
      (t.cells.getD r []).getD c TerminalCell.default = TerminalCell.default) ∧
    TerminalCell.default =
      ⟨' ', TerminalColor.white, TerminalColor.black,
       false, false, false, false⟩ := by
  refine ⟨by simp [Terminal.cells], ?_, ?_, rfl⟩
  · intro row hrow
    simp only [Terminal.cells, List.mem_map, List.mem_range] at hrow
    obtain ⟨i, _, rfl⟩ := hrow
    simp
  · intro r c hr hc hnone
    have hr1 : r < (t.cells).length := by simp [Terminal.cells, hr]
    rw [List.getD_eq_getElem _ _ hr1]
    have hrow : (t.cells)[r] =
        (List.range t.size.cols).map (fun colIdx =>
          match t.parser.cell r colIdx with
          | some cell => convertVtCell cell
          | none => TerminalCell.default) := by
      simp [Terminal.cells]
    rw [hrow]
    have hc1 : c < ((List.range t.size.cols).map (fun colIdx =>
        match t.parser.cell r colIdx with
        | some cell => convertVtCell cell
        | none => TerminalCell.default)).length := by simp [hc]
    rw [List.getD_eq_getElem _ _ hc1]
    simp [hnone]

/-- Claim C9 witness: on a facade whose stored size (2x2) exceeds the
parser grid (1x1), position (1,1) is outside the screen and the snapshot
holds the default cell there. -/
theorem cells_snapshot_witness :
    (((Terminal.mk ⟨1, 1⟩ ⟨2, 2⟩ (Screen.init 1 1 0)).cells.getD 1 []).getD 1
      TerminalCell.default) = TerminalCell.default :=
  (cells_snapshot (Terminal.mk ⟨1, 1⟩ ⟨2, 2⟩ (Screen.init 1 1 0))).2.2.1
    1 1 (by decide) (by decide) (by decide)

theorem splitWsAux_all_ws (l : List Char)
    (h : ∀ c ∈ l, isRustWhitespace c = true) : splitWsAux l [] = [] := by
  induction l with
  | nil => rfl
  | cons c rest ih =>
    have hc : isRustWhitespace c = true := h c (List.mem_cons_self c rest)
    simp only [splitWsAux, hc, if_pos, List.isEmpty_nil, if_true]
    exact ih (fun x hx => h x (List.mem_cons_of_mem c hx))

/-- Claim C10: `spawn(Some(cmd), size)` on a command made only of
whitespace (the empty string included) returns the "Empty command" error
once the PTY is open: `split_whitespace` yields no words, and the code
returns the error instead of falling back to the default shell (the
fallback runs only when no command at all is supplied). -/
theorem spawn_empty_command (env : OsEnv) (cmd : List Char)
    (size : TerminalSize) (hpty : env.openptyOk = true)
    (hws : ∀ c ∈ cmd, isRustWhitespace c = true) :
    Terminal.spawnModel env (some cmd) size = .error "Empty command" := by
  have hsplit : splitWhitespace cmd = [] := splitWsAux_all_ws cmd hws
  simp [Terminal.spawnModel, hpty, hsplit]

/-- Claim C10 witness: both a blank-and-tab command and the empty command
are rejected with the "Empty command" error. -/
theorem spawn_empty_command_witness :
    Terminal.spawnModel ⟨true, true, []⟩ (some [' ', '\t', ' ']) ⟨24, 80⟩ =
      .error "Empty command" ∧
    Terminal.spawnModel ⟨true, true, []⟩ (some []) ⟨24, 80⟩ =
      .error "Empty command" :=
  ⟨spawn_empty_command ⟨true, true, []⟩ [' ', '\t', ' '] ⟨24, 80⟩ rfl (by decide),
   spawn_empty_command ⟨true, true, []⟩ [] ⟨24, 80⟩ rfl (by decide)⟩

/-- Claim C5 counterexample: with the event-channel consumer dropped, the
pump does not terminate at the failed `Output` send after the first
chunk.  On two queued chunks it reads and processes both — the final
screen differs from the screen after the first chunk alone, which the
claim says should be the stopping point. -/
theorem pump_send_failure_counterexample :
    ¬ (readerPump false [ReadResult.chunk [97], ReadResult.chunk [98]]
        (Screen.init 2 2 0)
       = ((Screen.init 2 2 0).process [97], [])) := by
  decide

/-- Claim C5 (amended): the pump discards the result of every event send
(`let _ = event_tx.send(..)`), so after the consumer is dropped it emits
nothing but keeps reading and processing every subsequent chunk exactly
as when connected, terminating only on EOF or a read error. -/
theorem pump_ignores_send_failure (reads : List ReadResult) (scr : Screen) :
    (readerPump false reads scr).1 = (readerPump true reads scr).1 ∧
    (readerPump false reads scr).2 = [] := by
  induction reads generalizing scr with
  | nil => exact ⟨rfl, rfl⟩
  | cons r rs ih =>
    cases r with
    | eof => exact ⟨rfl, rfl⟩
    | readFailed m => exact ⟨rfl, rfl⟩
    | chunk d =>
      simp only [readerPump, sendEvent, if_pos, if_neg, Bool.false_eq_true,
        not_false_iff]
      exact ⟨(ih (scr.process d)).1, (ih (scr.process d)).2⟩

/-- Claim C6 counterexample: resolving the `Default` color is not
parameterized by a caller-supplied foreground/background pair — in the
cell conversion used by `cells()`, a cell with default foreground and
default background resolves both roles to the same fixed light-gray
constant `(211, 215, 207)`. -/
theorem default_color_role_counterexample :
    (convertVtCell VtCell.blank).fg = (convertVtCell VtCell.blank).bg ∧
    (convertVtCell VtCell.blank).fg = TerminalColor.mk 211 215 207 := by
  exact ⟨rfl, rfl⟩

/-- Claim C6 (amended): `from_vt100_color` resolves `Default` to the
fixed constant `(211, 215, 207)` (`TerminalColor::white`), and the cell
conversion applies this same resolution to the foreground and the
background role alike; no caller-supplied default pair exists. -/
theorem default_resolution_fixed :
    from_vt100_color Vt100Color.default = TerminalColor.mk 211 215 207 ∧
    ∀ cell : VtCell,
      (convertVtCell cell).fg = from_vt100_color cell.fg ∧
      (convertVtCell cell).bg = from_vt100_color cell.bg :=
  ⟨rfl, fun _ => ⟨rfl, rfl⟩⟩

set_option maxRecDepth 4000 in
/-- Claim C7: `from_256_color` is defined on every index in `[0, 255]`:
below 16 it matches the documented ANSI palette; on `[16, 232)` each
channel is `0` when the corresponding base-6 digit of `i - 16` is `0` and
`digit*40+55` otherwise (high digit red, middle green, low blue); from
232 on it is the grayscale value `(i-232)*10+8` on all three channels. -/
theorem from_256_color_complete (i : Nat) (h : i < 256) :
    (i < 16 → from_256_color i = ansiPalette16 i) ∧
    (16 ≤ i → i < 232 → from_256_color i =
      ⟨cubeChannel ((i - 16) / 36), cubeChannel (((i - 16) / 6) % 6),
       cubeChannel ((i - 16) % 6)⟩) ∧
    (232 ≤ i → from_256_color i =
      ⟨(i - 232) * 10 + 8, (i - 232) * 10 + 8, (i - 232) * 10 + 8⟩) := by
  revert h
  revert i
  decide

theorem lineFeed_scrollCap (s : Screen) : s.lineFeed.scrollCap = s.scrollCap := by
  unfold Screen.lineFeed
  split
  · rfl
  · split
    · rfl
    · rfl

theorem lineFeed_inv {s : Screen} (h : s.scrollback.length ≤ s.scrollCap) :
    s.lineFeed.scrollback.length ≤ s.lineFeed.scrollCap := by
  unfold Screen.lineFeed
  split
  · exact h
  · split
    · exact h
    · exact pushScrollback_length_le _ _ _

theorem putChar_scrollCap (s : Screen) (c : Char) :
    (s.putChar c).scrollCap = s.scrollCap := by
  unfold Screen.putChar
  dsimp only
  split
  · rfl
  · exact lineFeed_scrollCap s

theorem putChar_inv {s : Screen} (c : Char)
    (h : s.scrollback.length ≤ s.scrollCap) :
    (s.putChar c).scrollback.length ≤ (s.putChar c).scrollCap := by
  unfold Screen.putChar
  dsimp only
  split
  · exact h
  · exact lineFeed_inv h

theorem groundStep_scrollCap (s : Screen) (b : Nat) :
    (s.groundStep b).scrollCap = s.scrollCap := by
  unfold Screen.groundStep
  repeat' split
  all_goals first
    | rfl
    | exact lineFeed_scrollCap s
    | exact putChar_scrollCap s _

theorem groundStep_inv {s : Screen} (b : Nat)
    (h : s.scrollback.length ≤ s.scrollCap) :
    (s.groundStep b).scrollback.length ≤ (s.groundStep b).scrollCap := by
  unfold Screen.groundStep
  repeat' split
  all_goals first
    | exact h
    | exact lineFeed_inv h
    | exact putChar_inv _ h

theorem applyCsi_scrollback (s : Screen) (params : List Nat) (b : Nat) :
    (s.applyCsi params b).scrollback = s.scrollback ∧
    (s.applyCsi params b).scrollCap = s.scrollCap := by
  unfold Screen.applyCsi
  repeat' split
  all_goals exact ⟨rfl, rfl⟩

theorem step_scrollCap (s : Screen) (b : Nat) :
    (s.step b).scrollCap = s.scrollCap := by
  obtain ⟨rows, cols, grid, curRow, curCol, attrs, pstate, cap, sb⟩ := s
  cases pstate with
  | ground => exact groundStep_scrollCap _ b
  | esc =>
    simp only [Screen.step]
    split
    · rfl
    · rfl
  | csi params cur =>
    simp only [Screen.step]
    repeat' split
    all_goals first
      | rfl
      | exact (applyCsi_scrollback _ _ _).2
  | utf8 need acc =>
    simp only [Screen.step]
    repeat' split
    all_goals first
      | rfl
      | exact putChar_scrollCap _ _
      | exact groundStep_scrollCap _ b

theorem step_inv {s : Screen} (b : Nat)
    (h : s.scrollback.length ≤ s.scrollCap) :
    (s.step b).scrollback.length ≤ (s.step b).scrollCap := by
  obtain ⟨rows, cols, grid, curRow, curCol, attrs, pstate, cap, sb⟩ := s
  cases pstate with
  | ground => exact groundStep_inv b h
  | esc =>
    simp only [Screen.step]
    split
    · exact h
    · exact h
  | csi params cur =>
    simp only [Screen.step]
    repeat' split
    all_goals first
      | exact h
      | · have hc := applyCsi_scrollback
            (Screen.mk rows cols grid curRow curCol attrs (.csi params cur) cap sb)
            (params ++ [cur]) b
          simp only [hc.1, hc.2]
          exact h
  | utf8 need acc =>
    simp only [Screen.step]
    repeat' split
    all_goals first
      | exact h
      | exact putChar_inv _ h
      | exact groundStep_inv b h

theorem process_scrollCap (s : Screen) (bytes : List Nat) :
    (s.process bytes).scrollCap = s.scrollCap := by
  induction bytes generalizing s with
  | nil => rfl
  | cons b rest ih =>
    show ((s.step b).process rest).scrollCap = s.scrollCap
    rw [ih (s.step b), step_scrollCap]

theorem process_inv {s : Screen} (bytes : List Nat)
    (h : s.scrollback.length ≤ s.scrollCap) :
    (s.process bytes).scrollback.length ≤ (s.process bytes).scrollCap := by
  induction bytes generalizing s with
  | nil => exact h
  | cons b rest ih =>
    show ((s.step b).process rest).scrollback.length ≤ _
    exact ih (step_inv b h)

theorem foldl_pushScrollback_le (cap : Nat) (l : List (List VtCell))
    (sb : List (List VtCell)) (h : sb.length ≤ cap) :
    (l.foldl (pushScrollback cap) sb).length ≤ cap := by
  induction l generalizing sb with
  | nil => exact h
  | cons r rest ih => exact ih _ (pushScrollback_length_le cap sb r)

theorem setSize_scrollCap (s : Screen) (r c : Nat) :
    (s.setSize r c).scrollCap = s.scrollCap := rfl

theorem setSize_inv {s : Screen} (r c : Nat)
    (h : s.scrollback.length ≤ s.scrollCap) :
    (s.setSize r c).scrollback.length ≤ (s.setSize r c).scrollCap := by
  unfold Screen.setSize
  dsimp only
  exact foldl_pushScrollback_le _ _ _ h

theorem pushScrollback_eq_drop (cap : Nat) (sb : List (List VtCell))
    (row : List VtCell) :
    pushScrollback cap sb row =
      (sb ++ [row]).drop ((sb.length + 1) - min cap (sb.length + 1)) := by
  unfold pushScrollback
  by_cases h : cap < (sb ++ [row]).length
  · simp only [h, if_pos]
    congr 1
    simp only [List.length_append, List.length_singleton] at h ⊢
    omega
  · simp only [h, if_neg, not_false_iff]
    simp only [List.length_append, List.length_singleton, not_lt] at h
    have : sb.length + 1 - min cap (sb.length + 1) = 0 := by omega
    rw [this, List.drop_zero]

/-- Claim C8: the scrollback capacity is fixed at construction —
`process` and `set_size` never change it — and in every reachable screen
state the scrollback length never exceeds it; eviction is FIFO: pushing a
row keeps a suffix of the appended sequence, dropping exactly the oldest
rows beyond the capacity. -/
theorem scrollback_bound_invariant (s : Screen) (h : Reachable s) :
    s.scrollback_len ≤ s.scrollCap ∧
    (∀ bytes, (s.process bytes).scrollCap = s.scrollCap) ∧
    (∀ r c, (s.setSize r c).scrollCap = s.scrollCap) ∧
    (∀ sb row, pushScrollback s.scrollCap sb row =
      (sb ++ [row]).drop ((sb.length + 1) - min s.scrollCap (sb.length + 1))) := by
  refine ⟨?_, fun bytes => process_scrollCap s bytes,
    fun r c => setSize_scrollCap s r c,
    fun sb row => pushScrollback_eq_drop s.scrollCap sb row⟩
  induction h with
  | init rows cols cap => simp [Screen.init, Screen.scrollback_len]
  | processed s0 bytes _ ih => exact process_inv bytes ih
  | resized s0 r c _ ih => exact setSize_inv r c ih

/-- Claim C8 witness: a 2x2 screen with scrollback capacity 1, after
enough newline output to scroll four times, still has at most one
scrollback row. -/
theorem scrollback_bound_invariant_witness :
    (Screen.scrollback_len
      ((Screen.init 2 2 1).process [97, 10, 98, 10, 99, 10, 100, 10]))
      ≤ ((Screen.init 2 2 1).process [97, 10, 98, 10, 99, 10, 100, 10]).scrollCap :=
  (scrollback_bound_invariant _
    (Reachable.processed _ _ (Reachable.init 2 2 1))).1

/-- Claim C7 witness: index 5 hits the ANSI palette, 196 is pure red in
the color cube, 255 is the brightest grayscale entry. -/
theorem from_256_color_complete_witness :
    from_256_color 5 = ansiPalette16 5 ∧
    from_256_color 196 = TerminalColor.mk 255 0 0 ∧
    from_256_color 255 = TerminalColor.mk 238 238 238 :=
  ⟨(from_256_color_complete 5 (by decide)).1 (by decide),
   ((from_256_color_complete 196 (by decide)).2.1 (by decide)
     (by decide)).trans (by decide),
   ((from_256_color_complete 255 (by decide)).2.2 (by decide)).trans
     (by decide)⟩

end NTerm
